import Mathlib

/-
Shallow embedding of the DoH NSS resolver core from src/src/lib.rs
(crate dohres).  The embedding covers:

  * the NSS / netdb status constants at the top of lib.rs;
  * the CNAME chase loop inside `retrieve_addrs` (lines 239-278), as a
    per-pass scan function `scanPass` plus a fuel-indexed outer loop
    `chase` (fuel exhaustion, `none`, models non-termination of the
    Rust `'outer: loop`);
  * domain names as in trust_dns (`Name` = label sequence plus an
    is_fqdn flag), with `rootName`, `append_name` and the normalization
    idiom of lines 199-201;
  * `retrieve_addrs` itself, with its `errnop` / `h_errnop` pointer
    writes modelled as an explicit `Env` record and the single
    transport exchange modelled as an oracle `q : Nat -> reply`
    indexed by call number (the code performs exactly one call, `q 0`);
  * the `_nss_doh_gethostbyname2_r` / `_nss_doh_gethostbyname4_r`
    entry points down to, but not including, the byte-level buffer
    layout: the packed buffer is modelled as `Option (List Ipv4Addr)`
    (`none` = the caller-supplied buffer was not written).
-/

/-- NSS status codes (lib.rs lines 16-19). -/
def NSS_STATUS_TRYAGAIN : Int := -2

def NSS_STATUS_UNAVAIL : Int := -1

def NSS_STATUS_NOTFOUND : Int := 0

def NSS_STATUS_SUCCESS : Int := 1

/-- netdb h_errno values (lib.rs lines 21-26). -/
def HOST_NOT_FOUND : Int := 1

def TRY_AGAIN : Int := 2

def NO_RECOVERY : Int := 3

def NO_DATA : Int := 4

def NETDB_INTERNAL : Int := -1

def NETDB_SUCCESS : Int := 0

/-- libc address families and errno values used by lib.rs. -/
def AF_INET : Int := 2

def AF_INET6 : Int := 10

def ENOENT : Int := 2

def ERANGE : Int := 34

/-- IPv4 address: the four octets of std::net::Ipv4Addr. -/
structure Ipv4Addr where
  o1 : Nat
  o2 : Nat
  o3 : Nat
  o4 : Nat
deriving DecidableEq, Repr

/-- Answer record over an owner-name type α: the three record shapes
`retrieve_addrs` distinguishes via `rr_type()` / `rdata()` —
CNAME with its destination name, A with its address, anything else.
trust_dns guarantees `rdata` matches `rr_type`, so the panics on lines
254 and 261 of lib.rs are unreachable and the tagged union is exact. -/
inductive Record (α : Type) where
  | cname (owner : α) (dest : α) : Record α
  | a (owner : α) (ip : Ipv4Addr) : Record α
  | other (owner : α) : Record α
deriving DecidableEq, Repr

/-- Result of one full pass of the `for record in ans.iter()` loop
(lib.rs lines 240-270): a CNAME/A conflict (`addrs.clear(); break
'outer`), an alias transition (`looking_for` re-targeted, `break`), or
the pass ran to the end with the accumulated addresses. -/
inductive PassResult (α : Type) where
  | conflict : PassResult α
  | transit (next : α) : PassResult α
  | done (addrs : List Ipv4Addr) : PassResult α
deriving DecidableEq, Repr

/-- One pass of the inner `for` loop of the chase (lib.rs lines
240-270), scanning the answer records in order for records whose owner
equals `looking_for`: a matching CNAME with addresses already
accumulated is a conflict; a matching CNAME with no addresses ends the
pass with a transition; a matching A record appends its address;
everything else is skipped. -/
def scanPass {α : Type} [DecidableEq α] (looking_for : α) :
    List (Record α) → List Ipv4Addr → PassResult α
  | [], addrs => .done addrs
  | .cname owner dest :: rest, addrs =>
    if owner = looking_for then
      if addrs.isEmpty then .transit dest else .conflict
    else scanPass looking_for rest addrs
  | .a owner ip :: rest, addrs =>
    if owner = looking_for then scanPass looking_for rest (addrs ++ [ip])
    else scanPass looking_for rest addrs
  | .other _ :: rest, addrs => scanPass looking_for rest addrs

/-- Terminal result of the chase: the code either falls through to
`(Some(addrs), NSS_STATUS_SUCCESS)` or to `(None, NSS_STATUS_NOTFOUND)`
(lib.rs lines 275-278). -/
inductive Outcome where
  | notFound : Outcome
  | success (addrs : List Ipv4Addr) : Outcome
deriving DecidableEq, Repr

/-- The `'outer: loop` of lib.rs lines 239-274, fuel-indexed.  Each
iteration runs one full `scanPass` with an empty accumulator (the Rust
`addrs` vector is provably empty at the top of every pass: a transition
requires it empty, a conflict clears it and exits, and the
fall-through re-entry requires it empty).  A conflict exits with
`NotFound`; a transition inserts the old target into `cnames` and
exits with `NotFound` on a loop, else re-enters under the new target;
a completed pass exits with `Success` when addresses were collected and
otherwise re-enters with unchanged state — which in the Rust code is an
infinite loop, modelled here by fuel exhaustion (`none`). -/
def chase {α : Type} [DecidableEq α] (ans : List (Record α)) :
    Nat → α → List α → Option Outcome
  | 0, _, _ => none
  | fuel + 1, looking_for, cnames =>
    match scanPass looking_for ans [] with
    | .conflict => some .notFound
    | .transit next =>
      if next ∈ looking_for :: cnames then some .notFound
      else chase ans fuel next (looking_for :: cnames)
    | .done addrs =>
      if addrs.isEmpty then chase ans fuel looking_for cnames
      else some (.success addrs)

/-- Values of the A records owned by `t`, in answer-sequence order,
duplicates kept.  Used to state what a completed pass collects. -/
def aValues {α : Type} [DecidableEq α] (t : α) : List (Record α) → List Ipv4Addr
  | [] => []
  | .a owner ip :: rest =>
    if owner = t then ip :: aValues t rest else aValues t rest
  | _ :: rest => aValues t rest

/-- Whether the answer sequence holds a CNAME record owned by `t`. -/
def hasCnameFor {α : Type} [DecidableEq α] (t : α) : List (Record α) → Bool
  | [] => false
  | .cname owner _ :: rest => owner = t || hasCnameFor t rest
  | _ :: rest => hasCnameFor t rest

/-- Whether a single record is a CNAME owned by `t`. -/
def ownsCname {α : Type} [DecidableEq α] (t : α) : Record α → Bool
  | .cname owner _ => owner = t
  | _ => false

/-- Domain name as in trust_dns: an ordered label sequence (each label
a byte string) plus the is_fqdn flag. -/
structure TName where
  labels : List (List Nat)
  is_fqdn : Bool
deriving DecidableEq, Repr

/-- Name::root(): no labels, fully qualified. -/
def rootName : TName := ⟨[], true⟩

/-- Name::append_name in trust_dns: concatenates the label sequences
and takes the is_fqdn flag of the appended name. -/
def append_name (a b : TName) : TName := ⟨a.labels ++ b.labels, b.is_fqdn⟩

/-- The normalization idiom of lib.rs lines 199-201: append the root
name exactly when the parsed name is not already fully qualified. -/
def normalizeName (n : TName) : TName :=
  if n.is_fqdn then n else append_name n rootName

/-- Top-level DNS response codes distinguished by lib.rs lines 215-235:
NoError, NXDomain and ServFail by name, everything else by wildcard
(three further concrete codes stand in for the wildcard's domain). -/
inductive RCode where
  | noerror : RCode
  | formerr : RCode
  | servfail : RCode
  | nxdomain : RCode
  | notimp : RCode
  | refused : RCode
deriving DecidableEq, Repr

/-- Parsed DNS message: its top-level response code and its answer
section. -/
structure Msg where
  response_code : RCode
  answers : List (Record TName)
deriving DecidableEq, Repr

/-- The two out-parameters `errnop` and `h_errnop` written through raw
pointers by lib.rs, as an explicit record. -/
structure Env where
  errnop : Int
  h_errnop : Int
deriving DecidableEq, Repr

/-- Result triple of `retrieve_addrs`: the optional address list, the
NSS status, and the final state of the two out-parameters. -/
structure RetrieveOut where
  addrs : Option (List Ipv4Addr)
  status : Int
  env : Env
deriving DecidableEq, Repr

/-- One transport exchange of `resolve` (lib.rs lines 280-294): either
a transport/parse failure or the list of messages of the response. -/
abbrev TransportReply : Type := Except Unit (List Msg)

/-- retrieve_addrs (lib.rs lines 192-278).  `parsed` is the result of
`Name::from_str` on the raw text (the parser itself lives in
trust_dns); `q n` is the reply to the n-th transport call — the code
makes exactly one, `q 0`; `fuel` bounds the chase loop, `none`
modelling its non-termination.  The function first writes
ENOENT/NETDB_INTERNAL through the out-parameters, normalizes the name,
performs the single query, takes the first message, writes 0/NO_DATA,
classifies the response code, and only in the NoError case walks the
answer records. -/
def retrieve_addrs (parsed : Option TName) (q : Nat → TransportReply)
    (fuel : Nat) (env : Env) : Option RetrieveOut :=
  let env0 : Env := { env with errnop := ENOENT, h_errnop := NETDB_INTERNAL }
  match parsed with
  | none => some ⟨none, NSS_STATUS_UNAVAIL, env0⟩
  | some rname =>
    let dns_name := normalizeName rname
    match q 0 with
    | .error _ => some ⟨none, NSS_STATUS_UNAVAIL, env0⟩
    | .ok msgs =>
      match msgs.head? with
      | none => some ⟨none, NSS_STATUS_UNAVAIL, env0⟩
      | some msg =>
        let ans := msg.answers
        let env1 : Env := { env0 with errnop := 0, h_errnop := NO_DATA }
        match msg.response_code with
        | .nxdomain =>
          some ⟨none, NSS_STATUS_NOTFOUND, { env1 with h_errnop := HOST_NOT_FOUND }⟩
        | .servfail =>
          some ⟨none, NSS_STATUS_TRYAGAIN, { env1 with h_errnop := TRY_AGAIN }⟩
        | .noerror =>
          match chase ans fuel dns_name [] with
          | none => none
          | some (.success addrs) => some ⟨some addrs, NSS_STATUS_SUCCESS, env1⟩
          | some .notFound => some ⟨none, NSS_STATUS_NOTFOUND, env1⟩
        | _ =>
          some ⟨none, NSS_STATUS_UNAVAIL, { env1 with h_errnop := NO_RECOVERY }⟩

/-- _nss_doh_gethostbyname2_r (lib.rs lines 49-108) above the byte
layout: AF_INET6 is rejected immediately; otherwise the result of
`retrieve_addrs` is packed into the caller's buffer when it fits
(`data_size` exactly as computed on line 80 with 8-byte pointers), or
ERANGE/TRY_AGAIN is signalled.  The packed buffer is abstracted to the
address list written into it; `none` means the buffer is untouched. -/
def _nss_doh_gethostbyname2_r (parsed : Option TName) (rawLen : Nat)
    (af : Int) (q : Nat → TransportReply) (fuel : Nat) (buflen : Nat)
    (env : Env) : Option (Int × Env × Option (List Ipv4Addr)) :=
  if af = AF_INET6 then some (NSS_STATUS_NOTFOUND, env, none)
  else
    match retrieve_addrs parsed q fuel env with
    | none => none
    | some out =>
      match out.addrs with
      | none => some (out.status, out.env, none)
      | some addrs =>
        let ptr_size := 8
        let data_size := addrs.length * (ptr_size + 4) + ptr_size + rawLen + 1
        if buflen < data_size then
          some (NSS_STATUS_TRYAGAIN,
            { out.env with errnop := ERANGE, h_errnop := TRY_AGAIN }, none)
        else
          some (NSS_STATUS_SUCCESS,
            { out.env with h_errnop := NETDB_SUCCESS }, some addrs)

/-- _nss_doh_gethostbyname_r (lib.rs lines 37-47): forwards to the
two-argument entry point with AF_INET. -/
def _nss_doh_gethostbyname_r (parsed : Option TName) (rawLen : Nat)
    (q : Nat → TransportReply) (fuel : Nat) (buflen : Nat) (env : Env) :
    Option (Int × Env × Option (List Ipv4Addr)) :=
  _nss_doh_gethostbyname2_r parsed rawLen AF_INET q fuel buflen env

/-- _nss_doh_gethostbyname4_r (lib.rs lines 110-190) above the byte
layout: the family read from `(**pat).family` is rejected immediately
when AF_INET6; otherwise the address tuples are written when they fit
(`data_size` as computed on lines 142-144 with a 40-byte
gaih_addrtuple), or ERANGE/TRY_AGAIN is signalled. -/
def _nss_doh_gethostbyname4_r (parsed : Option TName) (rawLen : Nat)
    (fam : Int) (q : Nat → TransportReply) (fuel : Nat) (buflen : Nat)
    (env : Env) : Option (Int × Env × Option (List Ipv4Addr)) :=
  if fam = AF_INET6 then some (NSS_STATUS_NOTFOUND, env, none)
  else
    match retrieve_addrs parsed q fuel env with
    | none => none
    | some out =>
      match out.addrs with
      | none => some (out.status, out.env, none)
      | some addrs =>
        let gaih_size := 40
        let name_offset := (addrs.length - 1) * gaih_size
        let data_size := name_offset + rawLen + 1
        if buflen < data_size then
          some (NSS_STATUS_TRYAGAIN,
            { out.env with errnop := ERANGE, h_errnop := TRY_AGAIN }, none)
        else
          some (NSS_STATUS_SUCCESS,
            { out.env with h_errnop := NETDB_SUCCESS }, some addrs)

/-
Helper lemmas shared by the claim theorems.
-/

/-- A pass whose scan comes back `done []` made no progress: the Rust
`'outer` loop re-enters with identical state, so the chase never
terminates — at every fuel the result is `none`. -/
theorem chase_stuck {α : Type} [DecidableEq α] (ans : List (Record α)) (t : α)
    (h : scanPass t ans [] = .done []) :
    ∀ (fuel : Nat) (v : List α), chase ans fuel t v = none := by
  intro fuel
  induction fuel with
  | zero => intro v; rfl
  | succ n ih =>
    intro v
    simp only [chase, h, List.isEmpty_nil, if_true]
    exact ih v

/-- A scan that runs to the end of the answer sequence returns the
accumulator extended by exactly the A-record values owned by the
target, in order, and certifies that no CNAME owned by the target
occurs anywhere in the sequence. -/
theorem scanPass_done_eq {α : Type} [DecidableEq α] (t : α) :
    ∀ (ans : List (Record α)) (acc l : List Ipv4Addr),
      scanPass t ans acc = .done l →
        l = acc ++ aValues t ans ∧ hasCnameFor t ans = false := by
  intro ans
  induction ans with
  | nil =>
    intro acc l h
    simp only [scanPass, PassResult.done.injEq] at h
    simp [aValues, hasCnameFor, h.symm]
  | cons r rest ih =>
    intro acc l h
    cases r with
    | cname owner dest =>
      by_cases ho : owner = t
      · simp only [scanPass, ho, if_true] at h
        by_cases he : acc.isEmpty <;> simp [he] at h
      · simp only [scanPass, ho, if_false] at h
        obtain ⟨h1, h2⟩ := ih acc l h
        simp [aValues, hasCnameFor, ho, h1, h2]
    | a owner ip =>
      by_cases ho : owner = t
      · simp only [scanPass, ho, if_true] at h
        obtain ⟨h1, h2⟩ := ih (acc ++ [ip]) l h
        simp [aValues, hasCnameFor, ho, h1, h2]
      · simp only [scanPass, ho, if_false] at h
        obtain ⟨h1, h2⟩ := ih acc l h
        simp [aValues, hasCnameFor, ho, h1, h2]
    | other owner =>
      simp only [scanPass] at h
      obtain ⟨h1, h2⟩ := ih acc l h
      simp [aValues, hasCnameFor, h1, h2]

/-- A successful chase arises from a pass, under some terminal target,
that ran to the end with a non-empty address list. -/
theorem chase_success_shape {α : Type} [DecidableEq α] (ans : List (Record α)) :
    ∀ (fuel : Nat) (t : α) (v : List α) (l : List Ipv4Addr),
      chase ans fuel t v = some (Outcome.success l) →
        ∃ tf, scanPass tf ans [] = .done l ∧ l ≠ [] := by
  intro fuel
  induction fuel with
  | zero => intro t v l h; exact absurd h (by simp [chase])
  | succ n ih =>
    intro t v l h
    rw [chase] at h
    cases hs : scanPass t ans [] with
    | conflict => rw [hs] at h; simp at h
    | transit next =>
      rw [hs] at h
      by_cases hm : next ∈ t :: v
      · simp [hm] at h
      · simp only [hm, if_false] at h
        exact ih next (t :: v) l h
    | done addrs =>
      rw [hs] at h
      by_cases he : addrs.isEmpty
      · simp only [he, if_true] at h
        exact ih t v l h
      · rw [Bool.not_eq_true] at he
        simp [he] at h
        subst h
        refine ⟨t, hs, ?_⟩
        intro hnil
        rw [hnil] at he
        simp at he

/-- With a non-empty accumulator, a scan that still has a CNAME owned
by the target ahead of it (and only non-matching CNAMEs before that
one) ends in a conflict. -/
theorem scanPass_conflict_inner {α : Type} [DecidableEq α] (t nxt : α)
    (l3 : List (Record α)) :
    ∀ (l2 : List (Record α)) (acc : List Ipv4Addr), acc ≠ [] →
      (∀ r ∈ l2, ownsCname t r = false) →
      scanPass t (l2 ++ Record.cname t nxt :: l3) acc = .conflict := by
  intro l2
  induction l2 with
  | nil =>
    intro acc hacc _
    cases acc with
    | nil => exact absurd rfl hacc
    | cons x xs => simp [scanPass]
  | cons r rest ih =>
    intro acc hacc hcn
    have hhead := hcn r (List.mem_cons_self r rest)
    have htail : ∀ r' ∈ rest, ownsCname t r' = false :=
      fun r' hr' => hcn r' (List.mem_cons_of_mem r hr')
    cases r with
    | cname owner dest =>
      have ho : ¬owner = t := by simpa [ownsCname] using hhead
      simp only [List.cons_append, scanPass, ho, if_false]
      exact ih acc hacc htail
    | a owner ip =>
      by_cases ho : owner = t
      · simp only [List.cons_append, scanPass, ho, if_true]
        exact ih (acc ++ [ip]) (by simp) htail
      · simp only [List.cons_append, scanPass, ho, if_false]
        exact ih acc hacc htail
    | other owner =>
      simp only [List.cons_append, scanPass]
      exact ih acc hacc htail

/-- A scan that meets an A record owned by the target before any CNAME
owned by the target, with such a CNAME occurring later, ends in a
conflict. -/
theorem scanPass_conflict_outer {α : Type} [DecidableEq α] (t nxt : α)
    (ip : Ipv4Addr) (l2 l3 : List (Record α))
    (h2 : ∀ r ∈ l2, ownsCname t r = false) :
    ∀ (l1 : List (Record α)) (acc : List Ipv4Addr),
      (∀ r ∈ l1, ownsCname t r = false) →
      scanPass t (l1 ++ Record.a t ip :: l2 ++ Record.cname t nxt :: l3) acc
        = .conflict := by
  intro l1
  induction l1 with
  | nil =>
    intro acc _
    simp only [List.nil_append, scanPass, if_pos rfl]
    exact scanPass_conflict_inner t nxt l3 l2 (acc ++ [ip]) (by simp) h2
  | cons r rest ih =>
    intro acc hcn
    have hhead := hcn r (List.mem_cons_self r rest)
    have htail : ∀ r' ∈ rest, ownsCname t r' = false :=
      fun r' hr' => hcn r' (List.mem_cons_of_mem r hr')
    cases r with
    | cname owner dest =>
      have ho : ¬owner = t := by simpa [ownsCname] using hhead
      simp only [List.cons_append, scanPass, ho, if_false]
      exact ih acc htail
    | a owner ip' =>
      by_cases ho : owner = t
      · simp only [List.cons_append, scanPass, ho, if_true]
        exact ih (acc ++ [ip']) htail
      · simp only [List.cons_append, scanPass, ho, if_false]
        exact ih acc htail
    | other owner =>
      simp only [List.cons_append, scanPass]
      exact ih acc htail

/-- Shape predicate for the two-name alias cycle of C4: every CNAME in
the sequence is one of a→b or b→a, and every A record is owned by a
name other than a and b (the claim's unrelated address records). -/
def cycleShape {α : Type} [DecidableEq α] (a b : α) (ans : List (Record α)) : Bool :=
  ans.all fun r =>
    match r with
    | .cname owner dest => (owner = a && dest = b) || (owner = b && dest = a)
    | .a owner _ => !(owner = a) && !(owner = b)
    | .other _ => true

/-- The cycle shape is symmetric in the two names. -/
theorem cycleShape_symm {α : Type} [DecidableEq α] (a b : α)
    (ans : List (Record α)) (h : cycleShape a b ans = true) :
    cycleShape b a ans = true := by
  simp only [cycleShape, List.all_eq_true] at h ⊢
  intro r hr
  have := h r hr
  cases r with
  | cname owner dest => simp at this ⊢; tauto
  | a owner ip => simp at this ⊢; tauto
  | other owner => simp

/-- Under the cycle shape, a scan for `a` transitions to `b`. -/
theorem scanPass_cycle {α : Type} [DecidableEq α] (a b : α) (hab : a ≠ b) :
    ∀ ans : List (Record α), cycleShape a b ans = true →
      Record.cname a b ∈ ans → scanPass a ans [] = .transit b := by
  intro ans
  induction ans with
  | nil => intro _ hm; simp at hm
  | cons r rest ih =>
    intro hsh hm
    simp only [cycleShape, List.all_cons, Bool.and_eq_true] at hsh
    obtain ⟨hhead, htail'⟩ := hsh
    have htail : cycleShape a b rest = true := by
      simp only [cycleShape]
      exact htail'
    cases r with
    | cname owner dest =>
      simp only [Bool.or_eq_true, Bool.and_eq_true, decide_eq_true_eq] at hhead
      rcases hhead with ⟨h1, h2⟩ | ⟨h1, h2⟩
      · simp [scanPass, h1, h2]
      · have hne : ¬owner = a := by
          rw [h1]
          exact fun hc => hab hc.symm
        simp only [scanPass, hne, if_false]
        refine ih htail ?_
        rcases List.mem_cons.mp hm with heq | hmem
        · injection heq with i1 i2
          exact absurd (i1.trans h1) hab
        · exact hmem
    | a owner ip =>
      simp only [Bool.and_eq_true, Bool.not_eq_true', decide_eq_false_iff_not] at hhead
      have hne : ¬owner = a := hhead.1
      simp only [scanPass, hne, if_false]
      refine ih htail ?_
      rcases List.mem_cons.mp hm with heq | hmem
      · exact absurd heq (by simp)
      · exact hmem
    | other owner =>
      simp only [scanPass]
      refine ih htail ?_
      rcases List.mem_cons.mp hm with heq | hmem
      · exact absurd heq (by simp)
      · exact hmem

/-
Claim theorems.
-/

/-- C1: the claim states that the CNAME chase terminates on every
answer sequence — in particular that a full pass appending no address
and performing no alias transition ends the chase (Success when
addresses were accumulated, NotFound otherwise).  The code violates
this: such a no-progress pass re-enters the `'outer` loop with
unchanged state, so on an empty answer sequence, and equally on a
sequence whose only record is owned by a name other than the target,
the chase never terminates — `none` at every fuel, never `NotFound`. -/
theorem chase_no_progress_diverges :
    (∀ (fuel t : Nat) (v : List Nat), chase ([] : List (Record Nat)) fuel t v = none)
    ∧ (∀ (fuel : Nat) (v : List Nat) (ip : Ipv4Addr),
        chase [Record.a 1 ip] fuel 0 v = none) := by
  constructor
  · intro fuel t v
    exact chase_stuck [] t rfl fuel v
  · intro fuel v ip
    refine chase_stuck [Record.a 1 ip] 0 ?_ fuel v
    simp [scanPass]

/-- C6: the claim states that a NoError response with an empty answer
section (or with no record owned by the chase target) resolves to
NotFound just like negative answers, conflicts and loops.  The code
instead never returns on that input: with a NoError message carrying an
empty answer section, `retrieve_addrs` is `none` (the chase loop spins)
at every fuel, for every queried name and every prior
errnop/h_errnop state. -/
theorem retrieve_addrs_empty_answer_diverges :
    ∀ (rname : TName) (fuel : Nat) (env : Env),
      retrieve_addrs (some rname)
        (fun _ => Except.ok [⟨RCode.noerror, []⟩]) fuel env = none := by
  intro rname fuel env
  have h := chase_stuck ([] : List (Record TName)) (normalizeName rname) rfl fuel []
  simp [retrieve_addrs, h]

/-- C4: an answer sequence whose alias records form exactly the cycle
a→b, b→a (in either order, possibly repeated) and whose address
records are all owned by names other than a and b makes the chase from
`a` end in NotFound: the first pass transitions to b, the second back
to a, which is already in the visited set.  Any fuel ≥ 2 and any
initial visited set give the same outcome. -/
theorem cycle_notFound {α : Type} [DecidableEq α] (a b : α)
    (ans : List (Record α)) (hab : a ≠ b)
    (hsh : cycleShape a b ans = true)
    (hm1 : Record.cname a b ∈ ans) (hm2 : Record.cname b a ∈ ans) :
    ∀ (fuel : Nat) (v : List α),
      chase ans (fuel + 2) a v = some Outcome.notFound := by
  intro fuel v
  have s1 : scanPass a ans [] = .transit b := scanPass_cycle a b hab ans hsh hm1
  have s2 : scanPass b ans [] = .transit a :=
    scanPass_cycle b a hab.symm ans (cycleShape_symm a b ans hsh) hm2
  have hmem : a ∈ b :: a :: v := by simp
  by_cases hb : b ∈ a :: v
  · simp only [chase, s1, hb, if_true]
  · simp only [chase, s1, s2, hb, if_false, hmem, if_true]

/-- Witness for C4 at the spec's own scenario 4: the two-record cycle
a→b, b→a resolved from a is NotFound. -/
theorem cycle_notFound_witness :
    chase ([Record.cname 0 1, Record.cname 1 0] : List (Record Nat)) 2 0 []
      = some Outcome.notFound :=
  cycle_notFound 0 1 [Record.cname 0 1, Record.cname 1 0]
    (by decide) (by decide) (by decide) (by decide) 0 []

/-- C3 counterexample: the claim says that an alias and an address
record sharing the owner name 0 (the chase target) force NotFound
regardless of their relative order.  With the alias listed first —
sequence [CNAME 0→1, A 0 ↦ 9.9.9.9, A 1 ↦ 1.2.3.4] — the chase
follows the alias before ever collecting an address for owner 0 and
returns Success [1.2.3.4], not NotFound. -/
theorem conflict_any_order_counterexample :
    Record.cname 0 1 ∈ ([Record.cname 0 1, Record.a 0 ⟨9, 9, 9, 9⟩,
        Record.a 1 ⟨1, 2, 3, 4⟩] : List (Record Nat))
    ∧ Record.a 0 ⟨9, 9, 9, 9⟩ ∈ ([Record.cname 0 1, Record.a 0 ⟨9, 9, 9, 9⟩,
        Record.a 1 ⟨1, 2, 3, 4⟩] : List (Record Nat))
    ∧ chase ([Record.cname 0 1, Record.a 0 ⟨9, 9, 9, 9⟩,
        Record.a 1 ⟨1, 2, 3, 4⟩] : List (Record Nat)) 2 0 []
        = some (Outcome.success [⟨1, 2, 3, 4⟩])
    ∧ chase ([Record.cname 0 1, Record.a 0 ⟨9, 9, 9, 9⟩,
        Record.a 1 ⟨1, 2, 3, 4⟩] : List (Record Nat)) 2 0 []
        ≠ some Outcome.notFound := by
  decide

/-- C3 (amended): the conflict is detected — outcome NotFound, the
accumulated addresses discarded — exactly when an address record owned
by the current target stands before the alias record owned by it in
the answer sequence (no alias owned by the target in between); when
the alias stands first the chase follows it instead. -/
theorem conflict_addr_before_alias_notFound {α : Type} [DecidableEq α]
    (t nxt : α) (ip : Ipv4Addr) (l1 l2 l3 : List (Record α))
    (h1 : ∀ r ∈ l1, ownsCname t r = false)
    (h2 : ∀ r ∈ l2, ownsCname t r = false) :
    ∀ (fuel : Nat) (v : List α),
      chase (l1 ++ Record.a t ip :: l2 ++ Record.cname t nxt :: l3)
        (fuel + 1) t v = some Outcome.notFound := by
  intro fuel v
  have hs := scanPass_conflict_outer t nxt ip l2 l3 h2 l1 [] h1
  simp only [chase, hs]

/-- Witness for the amended C3: [A 0 ↦ 9.9.9.9, CNAME 0→1] chased from
0 is NotFound. -/
theorem conflict_addr_before_alias_witness :
    chase ([Record.a 0 ⟨9, 9, 9, 9⟩, Record.cname 0 1] : List (Record Nat)) 1 0 []
      = some Outcome.notFound :=
  conflict_addr_before_alias_notFound 0 1 ⟨9, 9, 9, 9⟩ [] [] []
    (by simp) (by simp) 0 []

/-- C5: the chase never yields Success carrying an empty address list
(first conjunct, over every answer sequence, fuel, target and visited
set), and at the `retrieve_addrs` level an address list is present in
the result exactly when the status is NSS_STATUS_SUCCESS, in which
case it is non-empty; every other status carries no addresses. -/
theorem success_never_empty :
    (∀ (ans : List (Record TName)) (fuel : Nat) (t : TName) (v : List TName)
        (l : List Ipv4Addr),
      chase ans fuel t v = some (Outcome.success l) → l ≠ [])
    ∧ (∀ (parsed : Option TName) (q : Nat → TransportReply) (fuel : Nat)
        (env : Env) (out : RetrieveOut),
      retrieve_addrs parsed q fuel env = some out →
        (out.status = NSS_STATUS_SUCCESS → ∃ l, out.addrs = some l ∧ l ≠ [])
        ∧ (out.status ≠ NSS_STATUS_SUCCESS → out.addrs = none)) := by
  have key : ∀ (ans : List (Record TName)) (fuel : Nat) (t : TName)
      (v : List TName) (l : List Ipv4Addr),
      chase ans fuel t v = some (Outcome.success l) → l ≠ [] := by
    intro ans fuel t v l h
    obtain ⟨tf, _, hne⟩ := chase_success_shape ans fuel t v l h
    exact hne
  refine ⟨key, ?_⟩
  intro parsed q fuel env out h
  cases parsed with
  | none =>
    simp only [retrieve_addrs, Option.some.injEq] at h
    subst h
    exact ⟨fun hs => absurd hs (by decide), fun _ => rfl⟩
  | some rname =>
    cases hq : q 0 with
    | error e =>
      simp only [retrieve_addrs, hq, Option.some.injEq] at h
      subst h
      exact ⟨fun hs => absurd hs (by decide), fun _ => rfl⟩
    | ok msgs =>
      cases hh : msgs.head? with
      | none =>
        simp only [retrieve_addrs, hq, hh, Option.some.injEq] at h
        subst h
        exact ⟨fun hs => absurd hs (by decide), fun _ => rfl⟩
      | some msg =>
        cases hrc : msg.response_code with
        | noerror =>
          cases hc : chase msg.answers fuel (normalizeName rname) [] with
          | none =>
            simp only [retrieve_addrs, hq, hh, hrc, hc] at h
            exact absurd h (by simp)
          | some oc =>
            cases oc with
            | notFound =>
              simp only [retrieve_addrs, hq, hh, hrc, hc, Option.some.injEq] at h
              subst h
              exact ⟨fun hs => absurd hs (by decide), fun _ => rfl⟩
            | success l =>
              simp only [retrieve_addrs, hq, hh, hrc, hc, Option.some.injEq] at h
              subst h
              exact ⟨fun _ => ⟨l, rfl, key msg.answers fuel (normalizeName rname) [] l hc⟩,
                fun hns => absurd rfl hns⟩
        | formerr =>
          simp only [retrieve_addrs, hq, hh, hrc, Option.some.injEq] at h
          subst h
          exact ⟨fun hs => absurd hs (by decide), fun _ => rfl⟩
        | servfail =>
          simp only [retrieve_addrs, hq, hh, hrc, Option.some.injEq] at h
          subst h
          exact ⟨fun hs => absurd hs (by decide), fun _ => rfl⟩
        | nxdomain =>
          simp only [retrieve_addrs, hq, hh, hrc, Option.some.injEq] at h
          subst h
          exact ⟨fun hs => absurd hs (by decide), fun _ => rfl⟩
        | notimp =>
          simp only [retrieve_addrs, hq, hh, hrc, Option.some.injEq] at h
          subst h
          exact ⟨fun hs => absurd hs (by decide), fun _ => rfl⟩
        | refused =>
          simp only [retrieve_addrs, hq, hh, hrc, Option.some.injEq] at h
          subst h
          exact ⟨fun hs => absurd hs (by decide), fun _ => rfl⟩

/-- Witness for C5: a successful one-record chase yields the non-empty
list [1.2.3.4]. -/
theorem success_never_empty_witness :
    ([⟨1, 2, 3, 4⟩] : List Ipv4Addr) ≠ [] :=
  success_never_empty.1 [Record.a ⟨[], true⟩ ⟨1, 2, 3, 4⟩] 1 ⟨[], true⟩ []
    [⟨1, 2, 3, 4⟩] (by decide)

/-- C10: a Success outcome of the chase carries exactly the values of
the A records owned by the terminal chase target — the one target `tf`
for which the answer sequence holds no CNAME — in answer-sequence
order with duplicates preserved (`aValues`), and that list is
non-empty; addresses owned by earlier alias hops do not appear, since
the list equals the A values of `tf` alone. -/
theorem success_addrs_exact {α : Type} [DecidableEq α]
    (ans : List (Record α)) (fuel : Nat) (t : α) (v : List α)
    (l : List Ipv4Addr)
    (h : chase ans fuel t v = some (Outcome.success l)) :
    ∃ tf, hasCnameFor tf ans = false ∧ l = aValues tf ans ∧ l ≠ [] := by
  obtain ⟨tf, hscan, hne⟩ := chase_success_shape ans fuel t v l h
  obtain ⟨heq, hcn⟩ := scanPass_done_eq tf ans [] l hscan
  exact ⟨tf, hcn, by simpa using heq, hne⟩

/-- Witness for C10 on a one-hop alias chain: chasing 0 over
[CNAME 0→1, A 1 ↦ 1.2.3.4, A 1 ↦ 5.6.7.8] succeeds with exactly the
two A values of the terminal target 1, in order. -/
theorem success_addrs_exact_witness :
    ∃ tf, hasCnameFor tf
        ([Record.cname 0 1, Record.a 1 ⟨1, 2, 3, 4⟩,
          Record.a 1 ⟨5, 6, 7, 8⟩] : List (Record Nat)) = false
      ∧ ([⟨1, 2, 3, 4⟩, ⟨5, 6, 7, 8⟩] : List Ipv4Addr)
          = aValues tf [Record.cname 0 1, Record.a 1 ⟨1, 2, 3, 4⟩,
              Record.a 1 ⟨5, 6, 7, 8⟩]
      ∧ ([⟨1, 2, 3, 4⟩, ⟨5, 6, 7, 8⟩] : List Ipv4Addr) ≠ [] :=
  success_addrs_exact [Record.cname 0 1, Record.a 1 ⟨1, 2, 3, 4⟩,
    Record.a 1 ⟨5, 6, 7, 8⟩] 2 0 [] [⟨1, 2, 3, 4⟩, ⟨5, 6, 7, 8⟩] (by decide)

/-- C2: classification of the top-level status code is computed before
any answer record is inspected — for each non-NoError code the result
is one fixed value for every answer section: NXDomain yields NotFound
(h_errnop HOST_NOT_FOUND) even when the answer section holds address
records, ServFail yields TryAgain, every other non-success code yields
Unavailable; a NoError status defers entirely to the chase over the
answer records. -/
theorem response_code_classification :
    ∀ (rname : TName) (ans : List (Record TName)) (fuel : Nat) (env : Env),
      (retrieve_addrs (some rname)
          (fun _ => Except.ok [⟨RCode.nxdomain, ans⟩]) fuel env
        = some ⟨none, NSS_STATUS_NOTFOUND, ⟨0, HOST_NOT_FOUND⟩⟩)
      ∧ (retrieve_addrs (some rname)
          (fun _ => Except.ok [⟨RCode.servfail, ans⟩]) fuel env
        = some ⟨none, NSS_STATUS_TRYAGAIN, ⟨0, TRY_AGAIN⟩⟩)
      ∧ (∀ rc : RCode, rc ≠ RCode.noerror → rc ≠ RCode.nxdomain →
          rc ≠ RCode.servfail →
          retrieve_addrs (some rname) (fun _ => Except.ok [⟨rc, ans⟩]) fuel env
            = some ⟨none, NSS_STATUS_UNAVAIL, ⟨0, NO_RECOVERY⟩⟩)
      ∧ (retrieve_addrs (some rname)
          (fun _ => Except.ok [⟨RCode.noerror, ans⟩]) fuel env
        = match chase ans fuel (normalizeName rname) [] with
          | none => none
          | some (Outcome.success addrs) =>
            some ⟨some addrs, NSS_STATUS_SUCCESS, ⟨0, NO_DATA⟩⟩
          | some Outcome.notFound =>
            some ⟨none, NSS_STATUS_NOTFOUND, ⟨0, NO_DATA⟩⟩) := by
  intro rname ans fuel env
  refine ⟨rfl, rfl, ?_, rfl⟩
  intro rc h1 h2 h3
  cases rc with
  | noerror => exact absurd rfl h1
  | nxdomain => exact absurd rfl h2
  | servfail => exact absurd rfl h3
  | formerr => rfl
  | notimp => rfl
  | refused => rfl

/-- Witness for C2 at a Refused response: the result is Unavailable
with h_errnop NO_RECOVERY. -/
theorem response_code_classification_witness :
    retrieve_addrs (some ⟨[], true⟩)
      (fun _ => Except.ok [⟨RCode.refused, []⟩]) 1 ⟨0, 0⟩
      = some ⟨none, NSS_STATUS_UNAVAIL, ⟨0, NO_RECOVERY⟩⟩ :=
  (response_code_classification ⟨[], true⟩ [] 1 ⟨0, 0⟩).2.2.1 RCode.refused
    (by decide) (by decide) (by decide)

/-- C7: an input whose name parsing failed resolves to Unavailable with
the transport never consulted (the result is one constant for every
transport oracle); a transport-layer failure (connection, handshake or
unparseable response, all surfaced as the error reply of `resolve`)
resolves to Unavailable; and the result depends only on the first
transport reply — no second exchange is ever consulted, i.e. no
internal retry. -/
theorem invalid_name_transport_unavailable :
    (∀ (q : Nat → TransportReply) (fuel : Nat) (env : Env),
      retrieve_addrs none q fuel env
        = some ⟨none, NSS_STATUS_UNAVAIL, ⟨ENOENT, NETDB_INTERNAL⟩⟩)
    ∧ (∀ (rname : TName) (q : Nat → TransportReply) (fuel : Nat) (env : Env),
        q 0 = Except.error () →
        retrieve_addrs (some rname) q fuel env
          = some ⟨none, NSS_STATUS_UNAVAIL, ⟨ENOENT, NETDB_INTERNAL⟩⟩)
    ∧ (∀ (parsed : Option TName) (q q' : Nat → TransportReply) (fuel : Nat)
        (env : Env),
        q 0 = q' 0 →
        retrieve_addrs parsed q fuel env = retrieve_addrs parsed q' fuel env) := by
  refine ⟨fun q fuel env => rfl, ?_, ?_⟩
  · intro rname q fuel env hq
    simp [retrieve_addrs, hq]
  · intro parsed q q' fuel env hq
    cases parsed with
    | none => rfl
    | some rname => simp only [retrieve_addrs, hq]

/-- Witness for C7: a failing transport exchange yields Unavailable. -/
theorem invalid_name_transport_unavailable_witness :
    retrieve_addrs (some ⟨[], true⟩) (fun _ => Except.error ()) 1 ⟨0, 0⟩
      = some ⟨none, NSS_STATUS_UNAVAIL, ⟨ENOENT, NETDB_INTERNAL⟩⟩ :=
  invalid_name_transport_unavailable.2.1 ⟨[], true⟩
    (fun _ => Except.error ()) 1 ⟨0, 0⟩ rfl

/-- C8: name normalization is idempotent — a fully qualified name is
left unchanged, and normalizing twice equals normalizing once for
every parseable name. -/
theorem normalizeName_idem :
    (∀ n : TName, n.is_fqdn = true → normalizeName n = n)
    ∧ (∀ n : TName, normalizeName (normalizeName n) = normalizeName n) := by
  constructor
  · intro n h
    simp [normalizeName, h]
  · intro n
    by_cases h : n.is_fqdn
    · simp [normalizeName, h]
    · simp [normalizeName, h, append_name, rootName]

/-- Witness for C8: the fully qualified single-label name is fixed by
normalization. -/
theorem normalizeName_idem_witness :
    normalizeName ⟨[[97]], true⟩ = ⟨[[97]], true⟩ :=
  normalizeName_idem.1 ⟨[[97]], true⟩ rfl

/-- C9: both lookup entry points return NSS_STATUS_NOTFOUND
immediately on an AF_INET6 request: the result is one constant for
every parse result and transport oracle (so no name parsing and no
query takes place), the errnop/h_errnop pair is returned unchanged (no
write), and the output-buffer component is `none` (the caller's buffer
is not written). -/
theorem af_inet6_immediate_notfound :
    ∀ (parsed : Option TName) (rawLen : Nat) (q : Nat → TransportReply)
      (fuel buflen : Nat) (env : Env),
      _nss_doh_gethostbyname2_r parsed rawLen AF_INET6 q fuel buflen env
        = some (NSS_STATUS_NOTFOUND, env, none)
      ∧ _nss_doh_gethostbyname4_r parsed rawLen AF_INET6 q fuel buflen env
        = some (NSS_STATUS_NOTFOUND, env, none) := by
  intro parsed rawLen q fuel buflen env
  constructor
  · simp [_nss_doh_gethostbyname2_r]
  · simp [_nss_doh_gethostbyname4_r]
